import Mathlib

/-!
Verification development for the `sdreader` volume-copy tool.

The definitions below are a shallow embedding of `src/sdreader.py`:
string/path helpers model the `os.path` functions the program uses,
mount-table parsing models `read_mounts_mac` / `read_mounts_linux`
(Python list indexing becomes `Except`, an `IndexError` becomes
`.error "IndexError"`), the removable-media classifier models
`is_sd_card`, and the copy engine models `copy_sd_card_contents` /
`copy_files` with the destination filesystem as an association list
(later writes shadow earlier ones, as overwriting does) and the
log/UI side effects as an explicit event list.
-/

namespace SDReader

/-- The last character of the list is a slash. -/
def charListEndsSlash : List Char → Bool
  | [] => false
  | [c] => c = '/'
  | _ :: c :: rest => charListEndsSlash (c :: rest)

/-- Model of `os.path.join a b` for the shapes the program produces:
an absolute second component wins, otherwise the parts are glued with
a single separator. -/
def joinPath (a b : String) : String :=
  if b.toList.head? = some '/' then b
  else if a.toList.isEmpty || charListEndsSlash a.toList then a ++ b
  else a ++ "/" ++ b

/-- Model of Python `s.strip("/")`: drop slashes from both ends. -/
def pyStripSlash (s : String) : String :=
  String.mk (((s.toList.dropWhile (fun c => c = '/')).reverse.dropWhile
    (fun c => c = '/')).reverse)

/-- Model of `os.path.basename`: everything after the last slash. -/
def pyBasename (s : String) : String :=
  String.mk ((s.toList.reverse.takeWhile (fun c => c ≠ '/')).reverse)

/-- Model of Python `s.strip("()")`: drop parentheses from both ends. -/
def stripParens (s : String) : String :=
  String.mk (((s.toList.dropWhile (fun c => c = '(' ∨ c = ')')).reverse.dropWhile
    (fun c => c = '(' ∨ c = ')')).reverse)

/-- Accumulating splitter behind `pySplit`: `acc` holds the current token's
characters in reverse; a whitespace character closes the token (empty
tokens are never emitted, as with Python's no-argument `split`). -/
def splitWsAux : List Char → List Char → List String
  | [], acc => if acc.isEmpty then [] else [String.mk acc.reverse]
  | c :: cs, acc =>
      if c.isWhitespace then
        (if acc.isEmpty then [] else [String.mk acc.reverse]) ++ splitWsAux cs []
      else splitWsAux cs (c :: acc)

/-- Model of Python `line.split()`: split on whitespace runs, no empty
parts. -/
def pySplit (s : String) : List String :=
  splitWsAux s.toList []

/-- `startsWithChars needle hay`: `needle` is an initial segment of `hay`. -/
def startsWithChars : List Char → List Char → Bool
  | [], _ => true
  | _ :: _, [] => false
  | a :: as, b :: bs => a = b && startsWithChars as bs

/-- `hasSubChars needle hay`: `needle` occurs contiguously inside `hay`. -/
def hasSubChars (needle : List Char) : List Char → Bool
  | [] => startsWithChars needle []
  | c :: rest => startsWithChars needle (c :: rest) || hasSubChars needle rest

/-- Model of Python's `needle in hay` substring test. -/
def strContains (hay needle : String) : Bool :=
  hasSubChars needle.toList hay.toList

/-- The host operating-system branch taken by the program at call time. -/
inductive HostOS
  | darwin
  | linuxPosix
  | windows
  | otherOS
deriving DecidableEq

/-- Model of `is_sd_card(device, mount_point)`.  The Darwin `diskutil` and
Windows `wmic` subprocess queries are abstracted as the boolean-valued
parameters `macQ` and `winQ`; the Linux branch and the fall-through
`return False` are taken verbatim from the source. -/
def is_sd_card (os : HostOS) (macQ winQ : String → Bool)
    (device : String) (_mount_point : String) : Bool :=
  match os with
  | .darwin => macQ device
  | .linuxPosix =>
      if strContains device "mmcblk" || strContains device "sd" then true
      else false
  | .windows => if winQ device then true else false
  | .otherOS => false

/-- The unit list of `bytes_to_human_readable`. -/
def size_units : List String := ["B", "KB", "MB", "GB", "TB", "PB", "EB", "ZB", "YB"]

/-- The loop of `bytes_to_human_readable`: divide by 1024 until the value is
below 1024 or the units run out; past the last unit fall back to "YB".
Python's float division by the power of two 1024 is exact scaling, so the
value is carried as an exact rational; the final `"%.2f"` formatting is
represented by returning the (value, unit) pair that is formatted. -/
def bytesLoop (numBytes : ℚ) : List String → ℚ × String
  | [] => (numBytes, "YB")
  | u :: rest => if numBytes < 1024 then (numBytes, u) else bytesLoop (numBytes / 1024) rest

/-- Model of `bytes_to_human_readable`. -/
def bytes_to_human_readable (n : ℚ) : ℚ × String :=
  bytesLoop n size_units

/-- The fields of one mount record the startup filter looks at. -/
structure MountInfo where
  device : String
  mount_point : String
deriving DecidableEq

/-- Model of the `__main__` filter
`mounts = [m for m in mounts if m["device"] != "C"]`. -/
def filter_c_drive (mounts : List MountInfo) : List MountInfo :=
  mounts.filter (fun m => m.device ≠ "C")

/-- Model of the Windows device-id normalization
`mount_info["DeviceID"].replace(":", "")`: every colon is removed. -/
def normalize_device (s : String) : String :=
  String.mk (s.toList.filter (fun c => c ≠ ':'))

/-! ### Mount-table enumeration (`read_mounts_mac`, `read_mounts_linux`) -/

/-- Model of Python list indexing `parts[i]`: out of range raises
`IndexError`, which aborts the enclosing enumeration. -/
def pyIndex (l : List String) (i : Nat) : Except String String :=
  match l.get? i with
  | some v => .ok v
  | none => .error "IndexError"

/-- One record produced by `read_mounts_mac`. -/
structure MacMount where
  device : String
  mount_point : String
  filesystem_type : String
  options : String
  is_sd_card : Bool
deriving DecidableEq

/-- One record produced by `read_mounts_linux`. -/
structure LinuxMount where
  device : String
  mount_point : String
  filesystem_type : String
  options : String
  dump : String
  pass : String
  is_sd_card : Bool
deriving DecidableEq

/-- The body of the `read_mounts_mac` loop for one line of `mount` output:
`parts = line.split(); device = parts[0]; mount_point = parts[2];
filesystem_type = parts[4].strip("()"); options = parts[5].strip("()")`.
`isSd` stands for the `is_sd_card(device, mount_point)` call. -/
def parse_mount_line_mac (isSd : String → String → Bool) (line : String) :
    Except String MacMount := do
  let parts := pySplit line
  let device ← pyIndex parts 0
  let mount_point ← pyIndex parts 2
  let ft ← pyIndex parts 4
  let opts ← pyIndex parts 5
  .ok ⟨device, mount_point, stripParens ft, stripParens opts, isSd device mount_point⟩

/-- The body of the `read_mounts_linux` loop for one line of `/proc/mounts`:
six whitespace-delimited fields, indexed 0..5. -/
def parse_mount_line_linux (isSd : String → String → Bool) (line : String) :
    Except String LinuxMount := do
  let parts := pySplit line
  let device ← pyIndex parts 0
  let mount_point ← pyIndex parts 1
  let ft ← pyIndex parts 2
  let opts ← pyIndex parts 3
  let dump ← pyIndex parts 4
  let pss ← pyIndex parts 5
  .ok ⟨device, mount_point, ft, opts, dump, pss, isSd device mount_point⟩

/-- Effectful map in source order: the loop appends one record per line and
an exception anywhere aborts the whole enumeration. -/
def mapE {α β : Type} (f : α → Except String β) : List α → Except String (List β)
  | [] => .ok []
  | a :: l => do
    let b ← f a
    let bs ← mapE f l
    .ok (b :: bs)

/-- Model of `read_mounts_mac` on the lines of `mount` output. -/
def read_mounts_mac (isSd : String → String → Bool) (lines : List String) :
    Except String (List MacMount) :=
  mapE (parse_mount_line_mac isSd) lines

/-- Model of `read_mounts_linux` on the lines of `/proc/mounts`. -/
def read_mounts_linux (isSd : String → String → Bool) (lines : List String) :
    Except String (List LinuxMount) :=
  mapE (parse_mount_line_linux isSd) lines

/-! ### The copy engine (`copy_sd_card_contents`, `copy_files`) -/

/-- What happens when `shutil.copy2` is attempted on one source file:
it succeeds, raises `PermissionError`, or raises some other `OSError`. -/
inductive CopyOutcome
  | ok
  | permDenied
  | otherError
deriving DecidableEq

/-- One regular file of the source tree, with the behavior the host
filesystem gives its copy attempt. -/
structure SrcFile where
  name : String
  content : String
  outcome : CopyOutcome
deriving DecidableEq

/-- One directory yielded by `os.walk`, identified by its path relative to
the mount point (`os.path.relpath(root, ctx.mount_point)`). -/
structure SrcDir where
  relPath : String
  files : List SrcFile
deriving DecidableEq

/-- The observable side effects of the copy loop: `plog` lines and the
`current_file_var.set` progress notifications shown to the operator. -/
inductive Event
  | log (msg : String)
  | progress (msg : String)
deriving DecidableEq

/-- The mutable state the copy loop threads: the destination filesystem as
an association list where the most recent write shadows older entries
(`shutil.copy2` overwrites an existing destination file), plus the emitted
events in order. -/
structure CopyState where
  fs : List (String × String)
  events : List Event
deriving DecidableEq

/-- The per-file `try`/`except PermissionError` body of
`copy_sd_card_contents`: on success the bytes land at the mirrored
destination path and a log line plus a progress notification are emitted;
on `PermissionError` only a log line is emitted and the loop continues;
any other error propagates and aborts the task. -/
def copy_one_file (srcDir destDir : String) (st : CopyState) (f : SrcFile) :
    Except String CopyState :=
  let src := joinPath srcDir f.name
  let dst := joinPath destDir f.name
  match f.outcome with
  | .ok => .ok ⟨(dst, f.content) :: st.fs,
      st.events ++ [.log ("Copied " ++ src ++ " to " ++ dst),
        .progress ("Copying: " ++ src)]⟩
  | .permDenied => .ok ⟨st.fs, st.events ++ [.log ("Permission denied: " ++ src)]⟩
  | .otherError => .error src

/-- The inner file loop of `copy_sd_card_contents` over one walked
directory. -/
def copy_dir (mount base : String) (st : CopyState) (d : SrcDir) :
    Except String CopyState :=
  d.files.foldlM (copy_one_file (joinPath mount d.relPath) (joinPath base d.relPath)) st

/-- Model of `copy_sd_card_contents`: walk the source tree directory by
directory, copying each file to `base / relPath / name`. -/
def copy_sd_card_contents (mount base : String) (tree : List SrcDir)
    (st : CopyState) : Except String CopyState :=
  tree.foldlM (copy_dir mount base) st

/-- The result of `copy_files`: the destination root used for each selected
volume, the final copy state, and the terminal message placed in
`current_file_var` at completion. -/
structure FilesResult where
  dest_roots : List String
  state : CopyState
  terminal : String
deriving DecidableEq

/-- The `for i, mount_point in enumerate(selected_mounts)` loop of
`copy_files`.  Note the source's accumulation:
`ctx.base_destination = os.path.join(ctx.base_destination, f"{mount_name}_{i}")`
reassigns the shared base, so each iteration joins onto the previous
iteration's destination root. -/
def copy_files_loop :
    List (Nat × String × List SrcDir) → String → List String → CopyState →
      Except String (String × List String × CopyState)
  | [], base, roots, st => .ok (base, roots, st)
  | (i, mp, tree) :: rest, base, roots, st => do
    let mountName := pyBasename (pyStripSlash mp)
    let base2 := joinPath base (mountName ++ "_" ++ toString i)
    let st2 ← copy_sd_card_contents mp base2 tree st
    copy_files_loop rest base2 (roots ++ [base2]) st2

/-- Model of `copy_files`: run the loop over the enumerated selection, then
set the terminal message `"Done copying !"` (reached only when no
iteration raised). -/
def copy_files (base0 : String) (sel : List (String × List SrcDir))
    (st0 : CopyState) : Except String FilesResult := do
  let r ← copy_files_loop sel.enum base0 [] st0
  .ok ⟨r.2.1, r.2.2, "Done copying !"⟩

/-- The destination-root formula the specification prescribes for the
volume at 0-based position `i`:
`baseDestination / (basename(mountPoint) + "_" + ordinalIndex)`, a pure
function of the base destination, the volume's basename and its index.
Stated from the spec's words for comparison with `copy_files`. -/
def spec_dest_root (base0 mp : String) (i : Nat) : String :=
  joinPath base0 (pyBasename mp ++ "_" ++ toString i)

/-! ### Pure descriptions of a completed copy run -/

/-- `Except` success as a boolean. -/
def isOkE {α : Type} : Except String α → Bool
  | .ok _ => true
  | .error _ => false

/-- The destination writes one file contributes. -/
def file_writes (destDir : String) (f : SrcFile) : List (String × String) :=
  match f.outcome with
  | .ok => [(joinPath destDir f.name, f.content)]
  | _ => []

/-- The events one file contributes. -/
def file_events (srcDir destDir : String) (f : SrcFile) : List Event :=
  match f.outcome with
  | .ok => [.log ("Copied " ++ joinPath srcDir f.name ++ " to " ++
      joinPath destDir f.name), .progress ("Copying: " ++ joinPath srcDir f.name)]
  | .permDenied => [.log ("Permission denied: " ++ joinPath srcDir f.name)]
  | .otherError => []

/-- The destination writes of one walked directory, in walk order. -/
def dir_writes (base : String) (d : SrcDir) : List (String × String) :=
  (d.files.map (file_writes (joinPath base d.relPath))).flatten

/-- The events of one walked directory, in walk order. -/
def dir_events (mount base : String) (d : SrcDir) : List Event :=
  (d.files.map (file_events (joinPath mount d.relPath) (joinPath base d.relPath))).flatten

/-- All destination writes of one task, in walk order. -/
def tree_writes (base : String) (tree : List SrcDir) : List (String × String) :=
  (tree.map (dir_writes base)).flatten

/-- All events of one task, in walk order. -/
def tree_events (mount base : String) (tree : List SrcDir) : List Event :=
  (tree.map (dir_events mount base)).flatten

/-- No file of the tree raises a non-permission copy error. -/
def no_other_error (tree : List SrcDir) : Prop :=
  ∀ d ∈ tree, ∀ f ∈ d.files, f.outcome ≠ .otherError

instance (tree : List SrcDir) : Decidable (no_other_error tree) := by
  unfold no_other_error
  infer_instance

/-- The progress notifications among a run's events. -/
def progress_msgs (evs : List Event) : List String :=
  evs.filterMap (fun e => match e with | .progress m => some m | _ => none)

/-- The source paths of the files the run copies successfully, in walk
order. -/
def ok_src_paths (mount : String) (tree : List SrcDir) : List String :=
  (tree.map (fun d => (d.files.filter (fun f => f.outcome = .ok)).map
    (fun f => joinPath (joinPath mount d.relPath) f.name))).flatten

/-! ### Helper lemmas about the copy engine -/

theorem copy_one_file_eq (srcDir destDir : String) (st : CopyState) (f : SrcFile)
    (h : f.outcome ≠ .otherError) :
    copy_one_file srcDir destDir st f =
      .ok ⟨(file_writes destDir f).reverse ++ st.fs,
        st.events ++ file_events srcDir destDir f⟩ := by
  cases hf : f.outcome <;>
    simp [copy_one_file, file_writes, file_events, hf] at h ⊢

theorem files_fold_eq (srcDir destDir : String) (fl : List SrcFile) :
    ∀ st : CopyState, (∀ f ∈ fl, f.outcome ≠ .otherError) →
      fl.foldlM (copy_one_file srcDir destDir) st =
        .ok ⟨((fl.map (file_writes destDir)).flatten).reverse ++ st.fs,
          st.events ++ (fl.map (file_events srcDir destDir)).flatten⟩ := by
  induction fl with
  | nil =>
    intro st _
    show Except.ok st = _
    simp
  | cons f fl ih =>
    intro st h
    have hf : f.outcome ≠ .otherError := h f (by simp)
    rw [List.foldlM_cons, copy_one_file_eq _ _ _ _ hf]
    show fl.foldlM (copy_one_file srcDir destDir) _ = _
    rw [ih _ (fun g hg => h g (by simp [hg]))]
    simp [List.reverse_append]

theorem files_fold_err (srcDir destDir : String) (fl : List SrcFile) :
    ∀ st : CopyState, (∃ f ∈ fl, f.outcome = .otherError) →
      ∃ e, fl.foldlM (copy_one_file srcDir destDir) st = .error e := by
  induction fl with
  | nil => intro st h; simp at h
  | cons f fl ih =>
    intro st h
    by_cases hf : f.outcome = .otherError
    · refine ⟨joinPath srcDir f.name, ?_⟩
      rw [List.foldlM_cons]
      simp only [copy_one_file, hf]
      rfl
    · rw [List.foldlM_cons, copy_one_file_eq _ _ _ _ hf]
      obtain ⟨g, hg, hgo⟩ := h
      rcases List.mem_cons.mp hg with rfl | hg'
      · exact absurd hgo hf
      · exact ih _ ⟨g, hg', hgo⟩

theorem files_fold_isOk (srcDir destDir : String) (fl : List SrcFile) (st : CopyState) :
    isOkE (fl.foldlM (copy_one_file srcDir destDir) st) = true ↔
      ∀ f ∈ fl, f.outcome ≠ .otherError := by
  constructor
  · intro h f hf ho
    obtain ⟨e, he⟩ := files_fold_err srcDir destDir fl st ⟨f, hf, ho⟩
    rw [he] at h
    simp [isOkE] at h
  · intro h
    rw [files_fold_eq _ _ _ _ h]
    simp [isOkE]

theorem copy_dir_eq (mount base : String) (d : SrcDir) (st : CopyState)
    (h : ∀ f ∈ d.files, f.outcome ≠ .otherError) :
    copy_dir mount base st d =
      .ok ⟨(dir_writes base d).reverse ++ st.fs, st.events ++ dir_events mount base d⟩ :=
  files_fold_eq _ _ _ _ h

theorem copy_sd_eq (mount base : String) (tree : List SrcDir) :
    ∀ st : CopyState, no_other_error tree →
      copy_sd_card_contents mount base tree st =
        .ok ⟨(tree_writes base tree).reverse ++ st.fs,
          st.events ++ tree_events mount base tree⟩ := by
  induction tree with
  | nil =>
    intro st _
    show Except.ok st = _
    simp [tree_writes, tree_events]
  | cons d tree ih =>
    intro st h
    have hd : ∀ f ∈ d.files, f.outcome ≠ .otherError := h d (by simp)
    show (d :: tree).foldlM (copy_dir mount base) st = _
    rw [List.foldlM_cons, copy_dir_eq _ _ _ _ hd]
    show copy_sd_card_contents mount base tree _ = _
    rw [ih _ (fun d' hd' => h d' (by simp [hd']))]
    simp [tree_writes, tree_events, List.reverse_append]

theorem copy_sd_err (mount base : String) (tree : List SrcDir) :
    ∀ st : CopyState, (∃ d ∈ tree, ∃ f ∈ d.files, f.outcome = .otherError) →
      ∃ e, copy_sd_card_contents mount base tree st = .error e := by
  induction tree with
  | nil => intro st h; simp at h
  | cons d tree ih =>
    intro st h
    by_cases hd : ∀ f ∈ d.files, f.outcome ≠ .otherError
    · show ∃ e, (d :: tree).foldlM (copy_dir mount base) st = .error e
      rw [List.foldlM_cons, copy_dir_eq _ _ _ _ hd]
      obtain ⟨d', hd', f, hf, ho⟩ := h
      rcases List.mem_cons.mp hd' with rfl | hd''
      · exact absurd ho (hd f hf)
      · exact ih _ ⟨d', hd'', f, hf, ho⟩
    · push_neg at hd
      obtain ⟨f, hf, ho⟩ := hd
      obtain ⟨e, he⟩ := files_fold_err (joinPath mount d.relPath)
        (joinPath base d.relPath) d.files st ⟨f, hf, ho⟩
      refine ⟨e, ?_⟩
      show (d :: tree).foldlM (copy_dir mount base) st = .error e
      rw [List.foldlM_cons]
      have he' : copy_dir mount base st d = .error e := he
      rw [he']
      rfl

theorem copy_sd_isOk (mount base : String) (tree : List SrcDir) (st : CopyState) :
    isOkE (copy_sd_card_contents mount base tree st) = true ↔ no_other_error tree := by
  constructor
  · intro h d hd f hf ho
    obtain ⟨e, he⟩ := copy_sd_err mount base tree st ⟨d, hd, f, hf, ho⟩
    rw [he] at h
    simp [isOkE] at h
  · intro h
    rw [copy_sd_eq _ _ _ _ h]
    simp [isOkE]

/-! ### Association-list lookup lemmas -/

theorem lookup_append_str (l m : List (String × String)) (p : String) :
    (l ++ m).lookup p = ((l.lookup p).orElse fun _ => m.lookup p) := by
  induction l with
  | nil => simp
  | cons q l ih =>
    rcases q with ⟨k, c⟩
    by_cases h : p = k
    · have hb : (p == k) = true := beq_iff_eq.mpr h
      simp [List.lookup, hb]
    · have hb : (p == k) = false := beq_eq_false_iff_ne.mpr h
      simp [List.lookup, hb, ih]

theorem lookup_eq_some_of_nodup (l : List (String × String)) (p c : String)
    (hn : (l.map Prod.fst).Nodup) (hm : (p, c) ∈ l) : l.lookup p = some c := by
  induction l with
  | nil => simp at hm
  | cons q l ih =>
    rcases q with ⟨k, d⟩
    simp only [List.map_cons, List.nodup_cons] at hn
    rcases List.mem_cons.mp hm with h | h
    · rw [Prod.mk.injEq] at h
      have hb : (p == k) = true := beq_iff_eq.mpr h.1
      simp [List.lookup, hb, h.2]
    · have hpk : p ≠ k := by
        rintro rfl
        exact hn.1 (List.mem_map.mpr ⟨(p, c), h, rfl⟩)
      have hb : (p == k) = false := beq_eq_false_iff_ne.mpr hpk
      simp [List.lookup, hb, ih hn.2 h]

/-! ### Progress-notification lemmas -/

theorem progress_msgs_append (a b : List Event) :
    progress_msgs (a ++ b) = progress_msgs a ++ progress_msgs b := by
  simp [progress_msgs]

theorem progress_msgs_file (srcDir destDir : String) (f : SrcFile) :
    progress_msgs (file_events srcDir destDir f) =
      if f.outcome = .ok then ["Copying: " ++ joinPath srcDir f.name] else [] := by
  cases h : f.outcome <;> simp [file_events, progress_msgs, h]

theorem progress_msgs_files (srcDir destDir : String) (fl : List SrcFile) :
    progress_msgs ((fl.map (file_events srcDir destDir)).flatten) =
      (fl.filter (fun f => f.outcome = .ok)).map
        (fun f => "Copying: " ++ joinPath srcDir f.name) := by
  induction fl with
  | nil => simp [progress_msgs]
  | cons f fl ih =>
    by_cases h : f.outcome = .ok <;>
      simp [progress_msgs_append, progress_msgs_file, h, ih, List.filter_cons]

theorem progress_msgs_tree (mount base : String) (tree : List SrcDir) :
    progress_msgs (tree_events mount base tree) =
      (ok_src_paths mount tree).map (fun s => "Copying: " ++ s) := by
  induction tree with
  | nil => simp [tree_events, ok_src_paths, progress_msgs]
  | cons d tree ih =>
    have hd : progress_msgs (dir_events mount base d) =
        (d.files.filter (fun f => f.outcome = .ok)).map
          (fun f => "Copying: " ++ joinPath (joinPath mount d.relPath) f.name) :=
      progress_msgs_files _ _ _
    have ht : (List.map (dir_events mount base) tree).flatten =
        tree_events mount base tree := rfl
    simp only [tree_events, List.map_cons, List.flatten_cons, progress_msgs_append]
    rw [hd, ht, ih]
    simp [ok_src_paths, List.map_map, Function.comp]

/-! ### Membership in a run's writes and events -/

theorem mem_tree_writes (base : String) (tree : List SrcDir) (d : SrcDir) (f : SrcFile)
    (hd : d ∈ tree) (hf : f ∈ d.files) (ho : f.outcome = .ok) :
    (joinPath (joinPath base d.relPath) f.name, f.content) ∈ tree_writes base tree := by
  simp only [tree_writes, List.mem_flatten, List.mem_map]
  refine ⟨dir_writes base d, ⟨d, hd, rfl⟩, ?_⟩
  simp only [dir_writes, List.mem_flatten, List.mem_map]
  exact ⟨file_writes (joinPath base d.relPath) f, ⟨f, hf, rfl⟩, by simp [file_writes, ho]⟩

theorem mem_tree_events_perm (mount base : String) (tree : List SrcDir)
    (d : SrcDir) (f : SrcFile) (hd : d ∈ tree) (hf : f ∈ d.files)
    (ho : f.outcome = .permDenied) :
    Event.log ("Permission denied: " ++ joinPath (joinPath mount d.relPath) f.name) ∈
      tree_events mount base tree := by
  simp only [tree_events, List.mem_flatten, List.mem_map]
  refine ⟨dir_events mount base d, ⟨d, hd, rfl⟩, ?_⟩
  simp only [dir_events, List.mem_flatten, List.mem_map]
  exact ⟨file_events (joinPath mount d.relPath) (joinPath base d.relPath) f,
    ⟨f, hf, rfl⟩, by simp [file_events, ho]⟩

/-! ### Mount-parsing lemmas -/

theorem pyIndex_ok (l : List String) (i : Nat) (h : i < l.length) :
    ∃ v, pyIndex l i = .ok v := by
  refine ⟨l[i], ?_⟩
  simp [pyIndex, List.getElem?_eq_getElem h]

theorem pyIndex_err (l : List String) (i : Nat) (h : l.length ≤ i) :
    pyIndex l i = .error "IndexError" := by
  simp [pyIndex, List.getElem?_eq_none h]

theorem pyIndex_shape (l : List String) (i : Nat) :
    pyIndex l i = .error "IndexError" ∨ ∃ v, pyIndex l i = .ok v := by
  rcases Nat.lt_or_ge i l.length with h | h
  · exact Or.inr (pyIndex_ok l i h)
  · exact Or.inl (pyIndex_err l i h)

theorem parse_mac_ok (isSd : String → String → Bool) (line : String)
    (h : 6 ≤ (pySplit line).length) :
    ∃ m, parse_mount_line_mac isSd line = .ok m := by
  obtain ⟨v0, e0⟩ := pyIndex_ok (pySplit line) 0 (by omega)
  obtain ⟨v2, e2⟩ := pyIndex_ok (pySplit line) 2 (by omega)
  obtain ⟨v4, e4⟩ := pyIndex_ok (pySplit line) 4 (by omega)
  obtain ⟨v5, e5⟩ := pyIndex_ok (pySplit line) 5 (by omega)
  refine ⟨⟨v0, v2, stripParens v4, stripParens v5, isSd v0 v2⟩, ?_⟩
  simp only [parse_mount_line_mac, e0, e2, e4, e5]
  rfl

theorem parse_mac_err (isSd : String → String → Bool) (line : String)
    (h : (pySplit line).length < 6) :
    parse_mount_line_mac isSd line = .error "IndexError" := by
  have e5 := pyIndex_err (pySplit line) 5 (by omega)
  rcases pyIndex_shape (pySplit line) 0 with e0 | ⟨v0, e0⟩ <;>
    rcases pyIndex_shape (pySplit line) 2 with e2 | ⟨v2, e2⟩ <;>
    rcases pyIndex_shape (pySplit line) 4 with e4 | ⟨v4, e4⟩ <;>
    (simp only [parse_mount_line_mac, e0, e2, e4, e5]; rfl)

theorem parse_linux_ok (isSd : String → String → Bool) (line : String)
    (h : 6 ≤ (pySplit line).length) :
    ∃ m, parse_mount_line_linux isSd line = .ok m := by
  obtain ⟨v0, e0⟩ := pyIndex_ok (pySplit line) 0 (by omega)
  obtain ⟨v1, e1⟩ := pyIndex_ok (pySplit line) 1 (by omega)
  obtain ⟨v2, e2⟩ := pyIndex_ok (pySplit line) 2 (by omega)
  obtain ⟨v3, e3⟩ := pyIndex_ok (pySplit line) 3 (by omega)
  obtain ⟨v4, e4⟩ := pyIndex_ok (pySplit line) 4 (by omega)
  obtain ⟨v5, e5⟩ := pyIndex_ok (pySplit line) 5 (by omega)
  refine ⟨⟨v0, v1, v2, v3, v4, v5, isSd v0 v1⟩, ?_⟩
  simp only [parse_mount_line_linux, e0, e1, e2, e3, e4, e5]
  rfl

theorem parse_linux_err (isSd : String → String → Bool) (line : String)
    (h : (pySplit line).length < 6) :
    parse_mount_line_linux isSd line = .error "IndexError" := by
  have e5 := pyIndex_err (pySplit line) 5 (by omega)
  rcases pyIndex_shape (pySplit line) 0 with e0 | ⟨v0, e0⟩ <;>
    rcases pyIndex_shape (pySplit line) 1 with e1 | ⟨v1, e1⟩ <;>
    rcases pyIndex_shape (pySplit line) 2 with e2 | ⟨v2, e2⟩ <;>
    rcases pyIndex_shape (pySplit line) 3 with e3 | ⟨v3, e3⟩ <;>
    rcases pyIndex_shape (pySplit line) 4 with e4 | ⟨v4, e4⟩ <;>
    (simp only [parse_mount_line_linux, e0, e1, e2, e3, e4, e5]; rfl)

theorem mapE_ok {α β : Type} (f : α → Except String β) (l : List α)
    (h : ∀ a ∈ l, ∃ b, f a = .ok b) :
    ∃ bs, mapE f l = .ok bs ∧ bs.length = l.length := by
  induction l with
  | nil => exact ⟨[], rfl, rfl⟩
  | cons a l ih =>
    obtain ⟨b, hb⟩ := h a (by simp)
    obtain ⟨bs, hbs, hlen⟩ := ih (fun x hx => h x (by simp [hx]))
    refine ⟨b :: bs, ?_, by simp [hlen]⟩
    simp only [mapE, hb, hbs]
    rfl

theorem mapE_err {α β : Type} (f : α → Except String β) (l : List α)
    (hshape : ∀ a ∈ l, f a = .error "IndexError" ∨ ∃ b, f a = .ok b)
    (herr : ∃ a ∈ l, f a = .error "IndexError") :
    mapE f l = .error "IndexError" := by
  induction l with
  | nil => simp at herr
  | cons a l ih =>
    rcases hshape a (by simp) with ha | ⟨b, hb⟩
    · simp only [mapE, ha]
      rfl
    · obtain ⟨x, hx, hex⟩ := herr
      rcases List.mem_cons.mp hx with rfl | hx'
      · rw [hb] at hex
        exact absurd hex (by simp)
      · have hl := ih (fun y hy => hshape y (by simp [hy])) ⟨x, hx', hex⟩
        simp only [mapE, hb, hl]
        rfl

/-! ### Lemmas about the size-conversion loop -/

theorem bytesLoop_first_unit :
    ∀ (us : List String) (x : ℚ), 0 ≤ x → ∀ i : Nat, i < us.length →
      x < 1024 ^ (i + 1) → (∀ j, j < i → 1024 ^ (j + 1) ≤ x) →
      bytesLoop x us = (x / 1024 ^ i, us.getD i "") := by
  intro us
  induction us with
  | nil =>
    intro x _ i hi
    simp at hi
  | cons u us ih =>
    intro x hx i hi hlt hmin
    by_cases hsmall : x < 1024
    · have hi0 : i = 0 := by
        by_contra h0
        have h1 := hmin 0 (Nat.pos_of_ne_zero h0)
        norm_num at h1
        linarith
      subst hi0
      simp [bytesLoop, hsmall]
    · have hi0 : i ≠ 0 := by
        rintro rfl
        norm_num at hlt
        exact hsmall hlt
      obtain ⟨i', rfl⟩ := Nat.exists_eq_succ_of_ne_zero hi0
      push_neg at hsmall
      have hx' : (0 : ℚ) ≤ x / 1024 := by positivity
      have hlt' : x / 1024 < 1024 ^ (i' + 1) := by
        rw [div_lt_iff₀ (by norm_num : (0:ℚ) < 1024)]
        calc x < 1024 ^ (i' + 1 + 1) := hlt
        _ = 1024 ^ (i' + 1) * 1024 := by ring
      have hmin' : ∀ j, j < i' → 1024 ^ (j + 1) ≤ x / 1024 := by
        intro j hj
        rw [le_div_iff₀ (by norm_num : (0:ℚ) < 1024)]
        calc (1024 : ℚ) ^ (j + 1) * 1024 = 1024 ^ (j + 1 + 1) := by ring
        _ ≤ x := hmin (j + 1) (by omega)
      have hrec := ih (x / 1024) hx' i' (by simpa using hi) hlt' hmin'
      rw [bytesLoop, if_neg (not_lt.mpr hsmall), hrec]
      rw [div_div, ← pow_succ']
      rfl

theorem bytesLoop_fallback :
    ∀ (us : List String) (x : ℚ), 1024 ^ us.length ≤ x →
      bytesLoop x us = (x / 1024 ^ us.length, "YB") := by
  intro us
  induction us with
  | nil =>
    intro x _
    simp [bytesLoop]
  | cons u us ih =>
    intro x hx
    have hp : (1 : ℚ) ≤ 1024 ^ us.length := one_le_pow₀ (by norm_num)
    have hbig : ¬ x < 1024 := by
      push_neg
      calc (1024 : ℚ) = 1 * 1024 := by ring
      _ ≤ 1024 ^ us.length * 1024 := by nlinarith
      _ = 1024 ^ (us.length + 1) := by ring
      _ ≤ x := by simpa using hx
    have hx' : 1024 ^ us.length ≤ x / 1024 := by
      rw [le_div_iff₀ (by norm_num : (0:ℚ) < 1024)]
      calc (1024 : ℚ) ^ us.length * 1024 = 1024 ^ (us.length + 1) := by ring
      _ ≤ x := by simpa using hx
    rw [bytesLoop, if_neg hbig, ih (x / 1024) hx']
    rw [div_div, ← pow_succ']
    rfl

/-! ### The claims -/

/-- Claim C1: `copy_files` does not compute each destination root as
`baseDestination / (basename(mountPoint_i) + "_" + i)`.  Because
`ctx.base_destination` is reassigned inside the loop, the root of the
second selected volume is nested under the first volume's root: for the
selection `["/a", "/b"]` with base `"dest"` the code produces
`dest/a_0/b_1`, while the specified pure formula gives `dest/b_1`. -/
theorem c1_dest_root_accumulates :
    copy_files "dest" [("/a", []), ("/b", [])] ⟨[], []⟩ =
      .ok ⟨["dest/a_0", "dest/a_0/b_1"], ⟨[], []⟩, "Done copying !"⟩ ∧
    spec_dest_root "dest" "/b" 1 = "dest/b_1" ∧
    ("dest/a_0/b_1" = "dest/b_1" → False) :=
  ⟨rfl, rfl, by decide⟩

/-- Claim C2 (amended): the per-file `try` block recovers only from
`PermissionError`; the task completes if and only if no file raises any
other copy error, i.e. a single non-permission per-file error aborts the
whole task instead of being logged and skipped. -/
theorem c2_only_permission_errors_skipped (mount base : String) (tree : List SrcDir)
    (st : CopyState) :
    isOkE (copy_sd_card_contents mount base tree st) = true ↔ no_other_error tree :=
  copy_sd_isOk mount base tree st

/-- Claim C2, counterexample to the claim as stated: a tree whose first
file raises a non-permission error makes the whole task abort with that
error, so the following file `b` is never copied. -/
theorem c2_other_error_aborts_task :
    copy_sd_card_contents "/m" "/d"
      [⟨".", [⟨"a", "x", .otherError⟩, ⟨"b", "y", .ok⟩]⟩] ⟨[], []⟩ =
      .error "/m/./a" := rfl

/-- Claim C3 (amended): a line that splits into at least six fields parses
into exactly one record (for both the Darwin and the Linux reader), but a
line with fewer fields raises `IndexError`, aborting the whole enumeration
rather than being skipped silently. -/
theorem c3_field_count_behavior (isSd : String → String → Bool) (lines : List String) :
    ((∀ l ∈ lines, 6 ≤ (pySplit l).length) →
      (∃ ms, read_mounts_mac isSd lines = .ok ms ∧ ms.length = lines.length) ∧
      (∃ ms, read_mounts_linux isSd lines = .ok ms ∧ ms.length = lines.length)) ∧
    ((∃ l ∈ lines, (pySplit l).length < 6) →
      read_mounts_mac isSd lines = .error "IndexError" ∧
      read_mounts_linux isSd lines = .error "IndexError") := by
  constructor
  · intro h
    exact ⟨mapE_ok _ _ (fun l hl => parse_mac_ok isSd l (h l hl)),
      mapE_ok _ _ (fun l hl => parse_linux_ok isSd l (h l hl))⟩
  · intro h
    obtain ⟨l, hl, hlen⟩ := h
    refine ⟨mapE_err _ _ ?_ ⟨l, hl, parse_mac_err isSd l hlen⟩,
      mapE_err _ _ ?_ ⟨l, hl, parse_linux_err isSd l hlen⟩⟩
    · intro a _
      rcases Nat.lt_or_ge (pySplit a).length 6 with ha | ha
      · exact Or.inl (parse_mac_err isSd a ha)
      · exact Or.inr (parse_mac_ok isSd a ha)
    · intro a _
      rcases Nat.lt_or_ge (pySplit a).length 6 with ha | ha
      · exact Or.inl (parse_linux_err isSd a ha)
      · exact Or.inr (parse_linux_ok isSd a ha)

/-- Claim C3, counterexample to the claim as stated: a one-field line makes
both readers raise `IndexError` instead of skipping the line and
continuing. -/
theorem c3_malformed_line_raises :
    read_mounts_mac (fun _ _ => false) ["devonly"] = .error "IndexError" ∧
    read_mounts_linux (fun _ _ => false) ["devonly"] = .error "IndexError" :=
  ⟨rfl, rfl⟩

/-- Claim C4 (amended): whenever `copy_files` completes, the terminal
notification placed in the UI is the fixed message `"Done copying !"`,
regardless of whether files were skipped; no `PartiallyFailed` terminal
status exists. -/
theorem c4_terminal_always_done (base0 : String) (sel : List (String × List SrcDir))
    (st0 : CopyState) (r : FilesResult) (h : copy_files base0 sel st0 = .ok r) :
    r.terminal = "Done copying !" := by
  unfold copy_files at h
  cases hl : copy_files_loop sel.enum base0 [] st0 with
  | error e =>
    rw [hl] at h
    exact absurd h (by simp [Bind.bind, Except.bind])
  | ok v =>
    rw [hl] at h
    simp only [Bind.bind, Except.bind] at h
    injection h with h
    rw [← h]

theorem c4_terminal_always_done_witness :
    (FilesResult.mk ["d/m_0"] ⟨[], [Event.log "Permission denied: /m/./f"]⟩
      "Done copying !").terminal = "Done copying !" :=
  c4_terminal_always_done "d" [("/m", [⟨".", [⟨"f", "x", .permDenied⟩]⟩])] ⟨[], []⟩ _ rfl

/-- Claim C4, counterexample to the claim as stated: a run in which a file
is skipped with a permission log ends with exactly the same terminal
message as a fully successful run, so the terminal status does not become
`PartiallyFailed` when a file was skipped. -/
theorem c4_skip_still_done :
    copy_files "d" [("/m", [⟨".", [⟨"f", "x", .permDenied⟩]⟩])] ⟨[], []⟩ =
      .ok ⟨["d/m_0"], ⟨[], [.log "Permission denied: /m/./f"]⟩, "Done copying !"⟩ ∧
    copy_files "d" [("/m", [⟨".", [⟨"f", "x", .ok⟩]⟩])] ⟨[], []⟩ =
      .ok ⟨["d/m_0"], ⟨[("d/m_0/./f", "x")],
        [.log "Copied /m/./f to d/m_0/./f", .progress "Copying: /m/./f"]⟩,
        "Done copying !"⟩ :=
  ⟨rfl, rfl⟩

/-- Claim C5 (amended): the progress notifications of a completed task are
exactly one `"Copying: <sourcePath>"` message per successfully copied
file, in walk order; skipped files emit no progress notification, and no
completed/total counts are computed or carried. -/
theorem c5_progress_only_on_success (mount base : String) (tree : List SrcDir)
    (st : CopyState) (h : copy_sd_card_contents mount base tree ⟨[], []⟩ = .ok st) :
    progress_msgs st.events = (ok_src_paths mount tree).map (fun s => "Copying: " ++ s) := by
  have hne : no_other_error tree :=
    (copy_sd_isOk mount base tree ⟨[], []⟩).mp (by rw [h]; rfl)
  have e := copy_sd_eq mount base tree ⟨[], []⟩ hne
  rw [h] at e
  injection e with e
  have hev : st.events = tree_events mount base tree := by simp [e]
  rw [hev, progress_msgs_tree]

theorem c5_progress_only_on_success_witness :
    progress_msgs (CopyState.mk [("/d/./g", "y")]
      [Event.log "Permission denied: /m/./f", Event.log "Copied /m/./g to /d/./g",
        Event.progress "Copying: /m/./g"]).events =
      (ok_src_paths "/m" [⟨".", [⟨"f", "x", .permDenied⟩, ⟨"g", "y", .ok⟩]⟩]).map
        (fun s => "Copying: " ++ s) :=
  c5_progress_only_on_success "/m" "/d"
    [⟨".", [⟨"f", "x", .permDenied⟩, ⟨"g", "y", .ok⟩]⟩] _ rfl

/-- Claim C5, counterexample to the claim as stated: a task processing two
files (one skipped for permissions, one copied) emits exactly one
progress notification, not one per file, and the notification carries the
source path rather than completed/total counts. -/
theorem c5_no_progress_for_skipped :
    copy_sd_card_contents "/m" "/d"
      [⟨".", [⟨"f", "x", .permDenied⟩, ⟨"g", "y", .ok⟩]⟩] ⟨[], []⟩ =
      .ok ⟨[("/d/./g", "y")], [.log "Permission denied: /m/./f",
        .log "Copied /m/./g to /d/./g", .progress "Copying: /m/./g"]⟩ ∧
    (progress_msgs [Event.log "Permission denied: /m/./f",
      Event.log "Copied /m/./g to /d/./g", Event.progress "Copying: /m/./g"]).length = 1 :=
  ⟨rfl, rfl⟩

/-- Claim C6: a permission failure on an individual file is logged and
skipped while the walk continues: the task still completes, every
successfully readable file's bytes end up at its mirrored destination
path, and every permission-denied file leaves a `Permission denied` log
line.  (`hnd` records that distinct source files map to distinct
destination paths, as the mirrored layout guarantees on a filesystem.) -/
theorem c6_permission_skip_continues (mount base : String) (tree : List SrcDir)
    (hne : no_other_error tree)
    (hnd : ((tree_writes base tree).map Prod.fst).Nodup) :
    ∃ st, copy_sd_card_contents mount base tree ⟨[], []⟩ = .ok st ∧
      (∀ d ∈ tree, ∀ f ∈ d.files, f.outcome = .ok →
        st.fs.lookup (joinPath (joinPath base d.relPath) f.name) = some f.content) ∧
      (∀ d ∈ tree, ∀ f ∈ d.files, f.outcome = .permDenied →
        Event.log ("Permission denied: " ++ joinPath (joinPath mount d.relPath) f.name) ∈
          st.events) := by
  refine ⟨⟨(tree_writes base tree).reverse ++ (⟨[], []⟩ : CopyState).fs,
    (⟨[], []⟩ : CopyState).events ++ tree_events mount base tree⟩,
    copy_sd_eq mount base tree ⟨[], []⟩ hne, ?_, ?_⟩
  · intro d hd f hf ho
    apply lookup_eq_some_of_nodup
    · simpa using hnd
    · simpa using mem_tree_writes base tree d f hd hf ho
  · intro d hd f hf ho
    simpa using mem_tree_events_perm mount base tree d f hd hf ho

theorem c6_permission_skip_continues_witness :
    ∃ st, copy_sd_card_contents "/m" "/d"
        [⟨".", [⟨"f", "x", .permDenied⟩, ⟨"g", "y", .ok⟩]⟩] ⟨[], []⟩ = .ok st ∧
      (∀ d ∈ [(⟨".", [⟨"f", "x", .permDenied⟩, ⟨"g", "y", .ok⟩]⟩ : SrcDir)],
        ∀ f ∈ d.files, f.outcome = .ok →
        st.fs.lookup (joinPath (joinPath "/d" d.relPath) f.name) = some f.content) ∧
      (∀ d ∈ [(⟨".", [⟨"f", "x", .permDenied⟩, ⟨"g", "y", .ok⟩]⟩ : SrcDir)],
        ∀ f ∈ d.files, f.outcome = .permDenied →
        Event.log ("Permission denied: " ++ joinPath (joinPath "/m" d.relPath) f.name) ∈
          st.events) :=
  c6_permission_skip_continues "/m" "/d"
    [⟨".", [⟨"f", "x", .permDenied⟩, ⟨"g", "y", .ok⟩]⟩] (by decide) (by decide)

/-- Claim C7: running the copy engine a second time over the same source
tree and the same destination overwrites each destination file with the
same bytes: the destination tree after the second run is extensionally
identical (same files, same contents) to the tree after the first run. -/
theorem c7_copy_idempotent (mount base : String) (tree : List SrcDir)
    (fs0 : List (String × String)) (st1 st2 : CopyState)
    (h1 : copy_sd_card_contents mount base tree ⟨fs0, []⟩ = .ok st1)
    (h2 : copy_sd_card_contents mount base tree ⟨st1.fs, []⟩ = .ok st2) :
    ∀ p : String, st2.fs.lookup p = st1.fs.lookup p := by
  have hne : no_other_error tree :=
    (copy_sd_isOk mount base tree ⟨fs0, []⟩).mp (by rw [h1]; rfl)
  have hfs1 : st1.fs = (tree_writes base tree).reverse ++ fs0 := by
    have e1 := copy_sd_eq mount base tree ⟨fs0, []⟩ hne
    rw [h1] at e1
    injection e1 with e1
    rw [e1]
  have hfs2 : st2.fs = (tree_writes base tree).reverse ++ st1.fs := by
    have e2 := copy_sd_eq mount base tree ⟨st1.fs, []⟩ hne
    rw [h2] at e2
    injection e2 with e2
    rw [e2]
  intro p
  rw [hfs2, hfs1, lookup_append_str, lookup_append_str]
  cases hA : ((tree_writes base tree).reverse.lookup p) <;>
    simp [Option.orElse, hA]

theorem c7_copy_idempotent_witness :
    (CopyState.mk [("/d/./a", "x"), ("/d/./a", "x")]
        [Event.log "Copied /m/./a to /d/./a",
          Event.progress "Copying: /m/./a"]).fs.lookup "/d/./a" =
    (CopyState.mk [("/d/./a", "x")]
        [Event.log "Copied /m/./a to /d/./a",
          Event.progress "Copying: /m/./a"]).fs.lookup "/d/./a" :=
  c7_copy_idempotent "/m" "/d" [⟨".", [⟨"a", "x", .ok⟩]⟩] [] _ _ rfl rfl "/d/./a"

/-- Claim C8: on a non-Darwin POSIX host the classifier deems a device
removable exactly when its path contains the substring "mmcblk" or the
substring "sd", independently of the subprocess-query behaviors (the
Linux branch consults neither), and on any other operating system every
device is classified not removable. -/
theorem c8_linux_classifier :
    ∀ (macQ winQ : String → Bool) (device mp : String),
      is_sd_card .linuxPosix macQ winQ device mp =
        (strContains device "mmcblk" || strContains device "sd") ∧
      is_sd_card .otherOS macQ winQ device mp = false ∧
      is_sd_card .linuxPosix macQ winQ device mp =
        is_sd_card .linuxPosix (fun _ => true) (fun _ => true) device mp := by
  intro macQ winQ device mp
  refine ⟨?_, rfl, rfl⟩
  simp [is_sd_card]

/-- Claim C9: the size conversion walks the unit list B, KB, ..., YB,
dividing by 1024 at each step, and returns the value paired with the
first unit at which it has dropped below 1024 (so the displayed value is
`n / 1024 ^ i` for the least such index `i`); if the value is still at
least 1024 after the last unit, it falls back to the pair
`(n / 1024 ^ 9, "YB")`. -/
theorem c9_human_readable_units (n : ℚ) (hn : 0 ≤ n) :
    (∀ i : Nat, i < 9 → n < 1024 ^ (i + 1) → (∀ j, j < i → 1024 ^ (j + 1) ≤ n) →
      bytes_to_human_readable n = (n / 1024 ^ i, size_units.getD i "")) ∧
    (1024 ^ 9 ≤ n → bytes_to_human_readable n = (n / 1024 ^ 9, "YB")) := by
  constructor
  · intro i hi hlt hmin
    exact bytesLoop_first_unit size_units n hn i (by simp [size_units]; omega) hlt hmin
  · intro h
    have hf := bytesLoop_fallback size_units n (by simpa [size_units] using h)
    simpa [size_units, bytes_to_human_readable] using hf

theorem c9_human_readable_units_witness :
    bytes_to_human_readable 2048 = (2048 / 1024 ^ 1, size_units.getD 1 "") :=
  (c9_human_readable_units 2048 (by norm_num)).1 1 (by norm_num) (by norm_num)
    (fun j hj => by
      have hj0 : j = 0 := by omega
      subst hj0
      norm_num)

/-- Claim C10: the startup filter removes every record whose normalized
device identifier is `"C"` (and keeps all others), and the Windows
normalization indeed maps the `C:` system drive's id to `"C"`, so that
drive can never appear in the presented catalog. -/
theorem c10_c_drive_filtered :
    ∀ mounts : List MountInfo,
      (∀ m ∈ filter_c_drive mounts, m.device ≠ "C") ∧
      (∀ m ∈ mounts, m.device ≠ "C" → m ∈ filter_c_drive mounts) ∧
      normalize_device "C:" = "C" := by
  intro mounts
  refine ⟨?_, ?_, rfl⟩
  · intro m hm
    have hp := List.of_mem_filter hm
    simpa using hp
  · intro m hm h
    exact List.mem_filter.mpr ⟨hm, by simpa using h⟩

end SDReader
